import Mathlib

/-!
Shallow embedding of `backend/tutor_api/ml/quiz_adapter.py` (class `QuizAdapter`).

Python floats are modelled as exact rationals, the `user_performance_history`
dict as a total map `ℤ → Option (List ℚ)` (a missing key is `none`), and the
sklearn logistic-regression prediction inside `calculate_next_difficulty` as an
oracle `Bool` parameter (`should_increase`), since only that binary decision is
consumed downstream and the fitted classifier is floating-point state that the
claims do not constrain.
-/

/-- Python slice `l[-n:]`: the last `n` entries of `l` (all of them when `l` is shorter). -/
def take_last (n : ℕ) (l : List ℚ) : List ℚ := l.drop (l.length - n)

/-- `np.mean` on a list of floats (guarded nonempty at every call site in the source). -/
def list_mean (l : List ℚ) : ℚ := l.sum / l.length

/-- Python `int(x)`: truncation toward zero. -/
def py_int (q : ℚ) : ℤ := if 0 ≤ q then ⌊q⌋ else ⌈q⌉

/-- Round-half-to-even to an integer, as Python's `round` does. -/
def round_half_even (q : ℚ) : ℤ :=
  if q - ⌊q⌋ < 1/2 then ⌊q⌋
  else if 1/2 < q - ⌊q⌋ then ⌊q⌋ + 1
  else if 2 ∣ ⌊q⌋ then ⌊q⌋ else ⌊q⌋ + 1

/-- Python `round(x, 3)`. -/
def py_round3 (q : ℚ) : ℚ := (round_half_even (q * 1000) : ℚ) / 1000

/-- One quiz result as consumed by `QuizAdapter` (`is_correct`, `time_taken`, `confidence`). -/
structure QuizResult where
  is_correct : Bool
  time_taken : ℚ
  confidence : ℚ
deriving DecidableEq

/-- The mutable state of a `QuizAdapter` instance that the claims concern:
the per-user performance-history dict. -/
structure QuizAdapterState where
  hist : ℤ → Option (List ℚ)

/-- A fresh adapter: empty history dict. -/
def initial_state : QuizAdapterState := ⟨fun _ => none⟩

/-- The history list a user effectively has (`[]` for a missing key). -/
def hist_of (s : QuizAdapterState) (u : ℤ) : List ℚ := (s.hist u).getD []

/-- `QuizAdapter._get_previous_performance`. -/
def get_previous_performance (s : QuizAdapterState) (user_id : ℤ) : ℚ :=
  match s.hist user_id with
  | none => 0.5
  | some history =>
    if history.length = 0 then 0.5
    else list_mean (take_last 5 history)

/-- `QuizAdapter._extract_features`. -/
def extract_features (s : QuizAdapterState) (user_id : ℤ) (quiz_result : QuizResult) :
    List ℚ :=
  let correctness : ℚ := if quiz_result.is_correct then 1 else 0
  let max_time : ℚ := 300
  let time_score : ℚ := max 0 (1 - quiz_result.time_taken / max_time)
  let confidence := quiz_result.confidence
  let previous_performance := get_previous_performance s user_id
  [correctness, time_score, confidence, previous_performance]

/-- `QuizAdapter._calculate_performance_score`. -/
def calculate_performance_score (quiz_result : QuizResult) : ℚ :=
  let correctness : ℚ := if quiz_result.is_correct then 1 else 0
  let max_time : ℚ := 300
  let time_penalty := max 0 (quiz_result.time_taken / max_time * 0.3)
  let confidence_bonus := quiz_result.confidence * 0.2
  let score := correctness - time_penalty + confidence_bonus
  max 0 (min 1 score)

/-- The list-level effect of one `_update_user_history` call: append, then keep
only the last 20 entries when the length exceeds 20. -/
def append_evict (l : List ℚ) (x : ℚ) : List ℚ :=
  let appended := l ++ [x]
  if 20 < appended.length then take_last 20 appended else appended

/-- `QuizAdapter._update_user_history` (the `new_difficulty` argument is unused
in the source body and therefore omitted). -/
def update_user_history (s : QuizAdapterState) (user_id : ℤ) (quiz_result : QuizResult) :
    QuizAdapterState :=
  let base := (s.hist user_id).getD []
  let performance_score := calculate_performance_score quiz_result
  ⟨fun u => if u = user_id then some (append_evict base performance_score) else s.hist u⟩

/-- `QuizAdapter.calculate_next_difficulty`; the classifier verdict on the
extracted features enters as the oracle `should_increase`. Returns the new
difficulty together with the updated adapter state. -/
def calculate_next_difficulty (s : QuizAdapterState) (should_increase : Bool)
    (user_id : ℤ) (current_difficulty : ℤ) (quiz_result : QuizResult) :
    ℤ × QuizAdapterState :=
  let new_difficulty :=
    if should_increase = true ∧ current_difficulty < 3 then current_difficulty + 1
    else if should_increase = false ∧ 1 < current_difficulty then current_difficulty - 1
    else current_difficulty
  (new_difficulty, update_user_history s user_id quiz_result)

/-- `QuizAdapter._adjust_question_difficulty`. -/
def adjust_question_difficulty (s : QuizAdapterState) (base_difficulty : ℤ) (user_id : ℤ)
    (question_index : ℕ) : ℤ :=
  match s.hist user_id with
  | none => base_difficulty
  | some history =>
    if history.length = 0 then base_difficulty
    else
      let recent_performance :=
        if 3 ≤ history.length then list_mean (take_last 3 history) else history.getLastD 0
      let adjusted :=
        if 0.7 < recent_performance then min 3 (base_difficulty + 1)
        else if recent_performance < 0.3 then max 1 (base_difficulty - 1)
        else base_difficulty
      max 1 (min 3 adjusted)

/-- A generated question record. -/
structure Question where
  id : String
  question_text : String
  difficulty_level : ℤ
  difficulty_text : String
  topic_id : ℤ
  options : List (ℤ × String)
  correct_option : ℤ
  points : ℤ
deriving DecidableEq

/-- The `difficulty_texts` dict lookup; on the only call path the key is always
in {1,2,3} (a clamped difficulty), so the KeyError branch is unreachable and is
modelled as `""`. -/
def difficulty_text_of (d : ℤ) : String :=
  if d = 1 then "Beginner" else if d = 2 then "Intermediate"
  else if d = 3 then "Advanced" else ""

/-- The `question_templates` dict with `.get(difficulty, question_templates[1])`. -/
def question_template (topic_id d : ℤ) : String :=
  if d = 1 then "What is the basic concept of topic " ++ toString topic_id ++ "?"
  else if d = 2 then "How does topic " ++ toString topic_id ++ " relate to other concepts?"
  else if d = 3 then "Explain the advanced applications of topic " ++ toString topic_id ++ "."
  else "What is the basic concept of topic " ++ toString topic_id ++ "?"

/-- `QuizAdapter._generate_sample_question`. -/
def generate_sample_question (topic_id difficulty question_num : ℤ) : Question :=
  { id := "q_" ++ toString topic_id ++ "_" ++ toString question_num
    question_text := question_template topic_id difficulty
    difficulty_level := difficulty
    difficulty_text := difficulty_text_of difficulty
    topic_id := topic_id
    options :=
      [ (1, "Option A for question " ++ toString question_num)
      , (2, "Option B for question " ++ toString question_num)
      , (3, "Option C for question " ++ toString question_num)
      , (4, "Option D for question " ++ toString question_num) ]
    correct_option := 1
    points := difficulty }

/-- `QuizAdapter.get_adaptive_questions`. -/
def get_adaptive_questions (s : QuizAdapterState) (topic_id user_id current_difficulty : ℤ)
    (num_questions : ℕ) : List Question :=
  (List.range num_questions).map fun i =>
    let question_difficulty := adjust_question_difficulty s current_difficulty user_id i
    generate_sample_question topic_id question_difficulty ((i : ℤ) + 1)

/-- Evaluation record returned by `evaluate_answer`. -/
structure EvalResult where
  is_correct : Bool
  score : ℤ
  feedback : String
  time_taken : ℚ
  confidence : ℚ
deriving DecidableEq

/-- `QuizAdapter._generate_feedback`. -/
def generate_feedback (is_correct : Bool) (time_taken confidence : ℚ) : String :=
  if is_correct then
    if time_taken < 60 then "Excellent! You answered quickly and correctly."
    else if time_taken < 180 then "Great job! You got the right answer."
    else "Correct answer, but try to be a bit faster next time."
  else
    if 0.7 < confidence then "You were confident but incorrect. Review the concept carefully."
    else "Don\x27t worry! This is a learning opportunity. Review the material and try again."

/-- `QuizAdapter.evaluate_answer` (answers modelled as strings; only equality of
the two answers is consumed). -/
def evaluate_answer (user_answer correct_answer : String) (time_taken : ℚ)
    (confidence : ℚ) : EvalResult :=
  let is_correct := user_answer == correct_answer
  let base_score : ℚ := if is_correct then 10 else 0
  let time_bonus : ℚ := max 0 ((300 - time_taken) / 300 * 5)
  let confidence_bonus : ℚ := if is_correct then confidence * 2 else 0
  let total_score := base_score + time_bonus + confidence_bonus
  { is_correct := is_correct
    score := py_int total_score
    feedback := generate_feedback is_correct time_taken confidence
    time_taken := time_taken
    confidence := confidence }

/-- Analytics record returned by `get_performance_analytics`; the empty-history
return dict in the source has no `recent_performance` key, hence the `Option`. -/
structure Analytics where
  total_attempts : ℕ
  average_score : ℚ
  improvement_trend : String
  strengths : List String
  weaknesses : List String
  recent_performance : Option (List ℚ)
deriving DecidableEq

/-- The zero baseline dict returned for a missing user or empty history. -/
def empty_analytics : Analytics :=
  { total_attempts := 0, average_score := 0, improvement_trend := "stable",
    strengths := [], weaknesses := [], recent_performance := none }

/-- `QuizAdapter.get_performance_analytics`. -/
def get_performance_analytics (s : QuizAdapterState) (user_id : ℤ) : Analytics :=
  match s.hist user_id with
  | none => empty_analytics
  | some history =>
    if history.length = 0 then empty_analytics
    else
      let total_attempts := history.length
      let average_score := list_mean history
      let trend :=
        if 3 ≤ history.length then
          let recent_avg := list_mean (take_last 3 history)
          let earlier_avg :=
            if 3 < history.length then list_mean (history.take (history.length - 3))
            else history.headD 0
          if earlier_avg + 0.1 < recent_avg then "improving"
          else if recent_avg < earlier_avg - 0.1 then "declining"
          else "stable"
        else "stable"
      let strengths := if 0.7 < average_score then ["Consistent high performance"] else []
      let weaknesses := if average_score < 0.4 then ["Need for fundamental review"] else []
      { total_attempts := total_attempts
        average_score := py_round3 average_score
        improvement_trend := trend
        strengths := strengths
        weaknesses := weaknesses
        recent_performance :=
          some (if 5 ≤ history.length then take_last 5 history else history) }

/-- `get_performance_analytics` as a state transformer: the method body never
assigns to `self.user_performance_history`, so the state component is returned
unchanged. -/
def get_performance_analytics_call (s : QuizAdapterState) (user_id : ℤ) :
    Analytics × QuizAdapterState :=
  (get_performance_analytics s user_id, s)

/-- `get_adaptive_questions` as a state transformer: the batch path performs no
assignment to `self.user_performance_history`. -/
def get_adaptive_questions_call (s : QuizAdapterState) (topic_id user_id current_difficulty : ℤ)
    (num_questions : ℕ) : List Question × QuizAdapterState :=
  (get_adaptive_questions s topic_id user_id current_difficulty num_questions, s)

/-- A sequence of primary-path decisions for one user: each event carries the
classifier verdict, the current difficulty passed in, and the quiz result. -/
def run_primary (s : QuizAdapterState) (user_id : ℤ)
    (events : List (Bool × ℤ × QuizResult)) : QuizAdapterState :=
  events.foldl (fun st e => (calculate_next_difficulty st e.1 user_id e.2.1 e.2.2).2) s

/-- A sequence of history updates, possibly across different users. -/
def run_updates (s : QuizAdapterState) (events : List (ℤ × QuizResult)) : QuizAdapterState :=
  events.foldl (fun st e => update_user_history st e.1 e.2) s

/-! ### Helper lemmas about the Python slice `[-n:]` and the bounded append -/

lemma take_last_of_le {n : ℕ} {l : List ℚ} (h : l.length ≤ n) : take_last n l = l := by
  unfold take_last
  have h0 : l.length - n = 0 := by omega
  rw [h0, List.drop_zero]

lemma take_last_length (n : ℕ) (l : List ℚ) : (take_last n l).length = min n l.length := by
  unfold take_last
  rw [List.length_drop]
  omega

lemma take_last_sublist (n : ℕ) (l : List ℚ) : (take_last n l).Sublist l :=
  List.drop_sublist _ _

lemma take_last_absorb (n : ℕ) (m xs : List ℚ) :
    take_last n (take_last n m ++ xs) = take_last n (m ++ xs) := by
  unfold take_last
  rw [List.drop_append_eq_append_drop, List.drop_append_eq_append_drop, List.drop_drop]
  congr 1
  · congr 1
    simp only [List.length_append, List.length_drop]
    omega
  · congr 1
    simp only [List.length_append, List.length_drop]
    omega

lemma append_evict_eq (l : List ℚ) (x : ℚ) :
    append_evict l x = take_last 20 (l ++ [x]) := by
  unfold append_evict
  by_cases h : 20 < (l ++ [x]).length
  · rw [if_pos h]
  · rw [if_neg h]
    exact (take_last_of_le (by omega)).symm

lemma append_evict_length_le (l : List ℚ) (x : ℚ) : (append_evict l x).length ≤ 20 := by
  rw [append_evict_eq, take_last_length]
  omega

lemma foldl_append_evict (xs : List ℚ) : ∀ acc : List ℚ, acc.length ≤ 20 →
    xs.foldl append_evict acc = take_last 20 (acc ++ xs) := by
  induction xs with
  | nil =>
    intro acc h
    simp only [List.foldl_nil, List.append_nil]
    exact (take_last_of_le h).symm
  | cons x xs ih =>
    intro acc h
    rw [List.foldl_cons, ih (append_evict acc x) (append_evict_length_le acc x),
      append_evict_eq acc x]
    rw [take_last_absorb]
    congr 1
    simp

lemma foldl_append_evict_nil (xs : List ℚ) :
    xs.foldl append_evict [] = take_last 20 xs := by
  rw [foldl_append_evict xs [] (by simp)]
  simp

/-! ### Helper lemmas about `np.mean`, scores and the state -/

lemma list_mean_nonneg {l : List ℚ} (h : ∀ x ∈ l, 0 ≤ x) : 0 ≤ list_mean l := by
  unfold list_mean
  exact div_nonneg (List.sum_nonneg h) (by positivity)

lemma list_mean_le_one {l : List ℚ} (h : ∀ x ∈ l, x ≤ 1) : list_mean l ≤ 1 := by
  unfold list_mean
  rcases eq_or_ne l [] with rfl | hne
  · simp
  · have hpos : (0 : ℚ) < l.length := by
      have := List.length_pos.mpr hne
      exact_mod_cast this
    rw [div_le_one hpos]
    have := List.sum_le_card_nsmul l 1 h
    simpa using this

lemma calculate_performance_score_nonneg (qr : QuizResult) :
    0 ≤ calculate_performance_score qr := le_max_left 0 _

lemma calculate_performance_score_le_one (qr : QuizResult) :
    calculate_performance_score qr ≤ 1 := by
  unfold calculate_performance_score
  exact max_le (by norm_num) (min_le_left 1 _)

lemma hist_of_update (s : QuizAdapterState) (u v : ℤ) (qr : QuizResult) :
    hist_of (update_user_history s v qr) u =
      if u = v then append_evict (hist_of s v) (calculate_performance_score qr)
      else hist_of s u := by
  unfold hist_of update_user_history
  by_cases h : u = v
  · simp [h]
  · simp [h]

lemma next_difficulty_state (s : QuizAdapterState) (b : Bool) (u c : ℤ) (qr : QuizResult) :
    (calculate_next_difficulty s b u c qr).2 = update_user_history s u qr := rfl

lemma run_primary_hist (u : ℤ) (events : List (Bool × ℤ × QuizResult)) :
    ∀ s : QuizAdapterState,
      hist_of (run_primary s u events) u =
        (events.map (fun e => calculate_performance_score e.2.2)).foldl append_evict
          (hist_of s u) := by
  induction events with
  | nil => intro s; rfl
  | cons e es ih =>
    intro s
    unfold run_primary at ih ⊢
    rw [List.foldl_cons, List.map_cons, List.foldl_cons, ih, next_difficulty_state,
      hist_of_update]
    simp

/-! ### Sample inputs used by witnesses and counterexamples -/

/-- A sample quiz result: correct, 30 seconds, default confidence. -/
def qr_sample : QuizResult := ⟨true, 30, 1/2⟩

/-! ### Claims -/

/-- C1: for every current difficulty in {1,2,3} and every quiz result,
`calculate_next_difficulty` returns a difficulty in {1,2,3} that differs from
the current one by at most 1: one step up on an increase verdict when
current < 3, one step down on a decrease verdict when current > 1, and
otherwise unchanged. -/
theorem C1_next_difficulty_one_step (s : QuizAdapterState) (inc : Bool) (u cur : ℤ)
    (qr : QuizResult) (hcur : cur = 1 ∨ cur = 2 ∨ cur = 3) :
    ((calculate_next_difficulty s inc u cur qr).1 = 1 ∨
      (calculate_next_difficulty s inc u cur qr).1 = 2 ∨
      (calculate_next_difficulty s inc u cur qr).1 = 3) ∧
    |(calculate_next_difficulty s inc u cur qr).1 - cur| ≤ 1 ∧
    (inc = true → cur < 3 → (calculate_next_difficulty s inc u cur qr).1 = cur + 1) ∧
    (inc = false → 1 < cur → (calculate_next_difficulty s inc u cur qr).1 = cur - 1) ∧
    (inc = true → cur = 3 → (calculate_next_difficulty s inc u cur qr).1 = cur) ∧
    (inc = false → cur = 1 → (calculate_next_difficulty s inc u cur qr).1 = cur) := by
  rcases hcur with rfl | rfl | rfl <;> cases inc <;>
    simp [calculate_next_difficulty]

/-- Witness for C1: an increase verdict at current difficulty 2 steps to 3. -/
theorem C1_witness :
    ((calculate_next_difficulty initial_state true 0 2 qr_sample).1 = 1 ∨
      (calculate_next_difficulty initial_state true 0 2 qr_sample).1 = 2 ∨
      (calculate_next_difficulty initial_state true 0 2 qr_sample).1 = 3) ∧
    |(calculate_next_difficulty initial_state true 0 2 qr_sample).1 - 2| ≤ 1 ∧
    (true = true → (2:ℤ) < 3 →
      (calculate_next_difficulty initial_state true 0 2 qr_sample).1 = 2 + 1) ∧
    (true = false → (1:ℤ) < 2 →
      (calculate_next_difficulty initial_state true 0 2 qr_sample).1 = 2 - 1) ∧
    (true = true → (2:ℤ) = 3 →
      (calculate_next_difficulty initial_state true 0 2 qr_sample).1 = 2) ∧
    (true = false → (2:ℤ) = 1 →
      (calculate_next_difficulty initial_state true 0 2 qr_sample).1 = 2) :=
  C1_next_difficulty_one_step initial_state true 0 2 qr_sample (Or.inr (Or.inl rfl))

/-- C2: after more than 20 primary-path decisions for one user starting from a
fresh adapter, the stored history is exactly the 20 most recently appended
performance scores, in insertion order (eviction happens only at the head). -/
theorem C2_history_window (u : ℤ) (events : List (Bool × ℤ × QuizResult))
    (h : 20 < events.length) :
    hist_of (run_primary initial_state u events) u =
      (events.map (fun e => calculate_performance_score e.2.2)).drop
        (events.length - 20) ∧
    (hist_of (run_primary initial_state u events) u).length = 20 := by
  have h0 : hist_of initial_state u = [] := rfl
  have h1 := run_primary_hist u events initial_state
  rw [h0, foldl_append_evict_nil] at h1
  constructor
  · rw [h1]
    unfold take_last
    congr 1
    simp
  · rw [h1, take_last_length]
    simp only [List.length_map]
    omega

/-- Witness for C2: 21 identical decisions leave a 20-entry window. -/
theorem C2_witness :
    hist_of (run_primary initial_state 0 (List.replicate 21 (true, 2, qr_sample))) 0 =
      ((List.replicate 21 ((true : Bool), (2:ℤ), qr_sample)).map
        (fun e => calculate_performance_score e.2.2)).drop
        ((List.replicate 21 ((true : Bool), (2:ℤ), qr_sample)).length - 20) ∧
    (hist_of (run_primary initial_state 0 (List.replicate 21 (true, 2, qr_sample))) 0).length =
      20 :=
  C2_history_window 0 (List.replicate 21 (true, 2, qr_sample)) (by simp)

/-- C3 counterexample: with `time_taken = -300` the extracted `time_score` is 2
(negative time is not treated as 0, so the score exceeds 1), and a confidence
of 3/2 passes into the feature vector unclamped. -/
theorem C3_counterexample :
    extract_features initial_state 0 ⟨true, -300, 3/2⟩ = [1, 2, 3/2, 1/2] ∧
    ¬ ((2 : ℚ) ≤ 1) ∧ ¬ ((3/2 : ℚ) ≤ 1) := by
  refine ⟨?_, by norm_num, by norm_num⟩
  norm_num [extract_features, get_previous_performance, initial_state]

/-- C3 (amended): no exception is raised for out-of-range numeric inputs (the
computation is total) and the stored performance score is clamped to [0,1];
but a negative `time_taken` yields `time_score = 1 - t/300 > 1` instead of
being treated as 0, and a confidence above 1 is passed through unclamped into
the feature vector. -/
theorem C3_no_input_clamping (s : QuizAdapterState) (u : ℤ) (qr : QuizResult)
    (hneg : qr.time_taken < 0) :
    extract_features s u qr =
      [if qr.is_correct then 1 else 0, 1 - qr.time_taken / 300, qr.confidence,
        get_previous_performance s u] ∧
    1 < 1 - qr.time_taken / 300 ∧
    0 ≤ calculate_performance_score qr ∧ calculate_performance_score qr ≤ 1 := by
  have hdiv : qr.time_taken / 300 < 0 := div_neg_of_neg_of_pos hneg (by norm_num)
  have hts : max 0 (1 - qr.time_taken / 300) = 1 - qr.time_taken / 300 :=
    max_eq_right (by linarith)
  exact ⟨by simp [extract_features, hts], by linarith,
    calculate_performance_score_nonneg qr, calculate_performance_score_le_one qr⟩

/-- Witness for C3 (amended) at `time_taken = -300`, `confidence = 3/2`. -/
theorem C3_witness :
    extract_features initial_state 0 ⟨false, -300, 3/2⟩ =
      [if (false : Bool) then 1 else 0, 1 - (-300 : ℚ) / 300, 3/2,
        get_previous_performance initial_state 0] ∧
    1 < 1 - (-300 : ℚ) / 300 ∧
    0 ≤ calculate_performance_score ⟨false, -300, 3/2⟩ ∧
    calculate_performance_score ⟨false, -300, 3/2⟩ ≤ 1 :=
  C3_no_input_clamping initial_state 0 ⟨false, -300, 3/2⟩ (by norm_num)

/-- The trend statistic of `_adjust_question_difficulty`: mean of the last 3
history entries when at least 3 exist, otherwise the single last entry. -/
def trend_value (history : List ℚ) : ℚ :=
  if 3 ≤ history.length then list_mean (take_last 3 history) else history.getLastD 0

lemma adjust_eq (s : QuizAdapterState) (base u : ℤ) (i : ℕ) (history : List ℚ)
    (hh : s.hist u = some history) (hne : history ≠ []) :
    adjust_question_difficulty s base u i =
      max 1 (min 3 (if 0.7 < trend_value history then min 3 (base + 1)
        else if trend_value history < 0.3 then max 1 (base - 1) else base)) := by
  unfold adjust_question_difficulty trend_value
  rw [hh]
  have hlen : ¬ history.length = 0 := by simpa [List.length_eq_zero] using hne
  simp only [hlen, if_false]

/-- Adapter state holding history `[0.9, 0.1]` for user 7. -/
def c4_state : QuizAdapterState := ⟨fun u => if u = 7 then some [0.9, 0.1] else none⟩

/-- Adapter state holding history `[0.9, 0.9, 0.9]` for user 7. -/
def high_state : QuizAdapterState :=
  ⟨fun u => if u = 7 then some [0.9, 0.9, 0.9] else none⟩

/-- C4 counterexample: with stored history `[0.9, 0.1]` the mean of the (fewer
than 3) entries is 0.5, for which the claim says the base difficulty 2 is kept;
the code instead looks only at the last entry 0.1 < 0.3 and lowers the
difficulty to 1. -/
theorem C4_counterexample :
    adjust_question_difficulty c4_state 2 7 0 = 1 ∧
    list_mean [0.9, 0.1] = 1/2 ∧ ¬ ((1/2 : ℚ) < 0.3) ∧ ¬ ((0.7 : ℚ) < 1/2) := by
  refine ⟨?_, by norm_num [list_mean], by norm_num, by norm_num⟩
  rw [adjust_eq c4_state 2 7 0 [0.9, 0.1] (by norm_num [c4_state]) (by simp)]
  norm_num [trend_value, list_mean]

/-- C4 (amended): the secondary per-question adjustment proposes base+1
(clamped to 3) when the trend statistic exceeds 0.7 and base-1 (clamped to 1)
when it is below 0.3, otherwise base — where the trend statistic is the mean of
the last 3 history entries when at least 3 exist but only the single most
recent entry (not the mean of the fewer entries) when the history is shorter;
with history `[0.9, 0.9, 0.9]` and base 2 every question of a batch of 3 is
proposed at difficulty 3, and with empty or missing history the base is kept. -/
theorem C4_trend_adjustment (s : QuizAdapterState) (u base : ℤ) (i : ℕ)
    (hb : base = 1 ∨ base = 2 ∨ base = 3) :
    (s.hist u = none → adjust_question_difficulty s base u i = base) ∧
    (∀ history : List ℚ, s.hist u = some history →
      (history = [] → adjust_question_difficulty s base u i = base) ∧
      (history ≠ [] →
        (3 ≤ history.length → trend_value history = list_mean (take_last 3 history)) ∧
        (history.length < 3 → trend_value history = history.getLastD 0) ∧
        (0.7 < trend_value history →
          adjust_question_difficulty s base u i = min 3 (base + 1)) ∧
        (trend_value history < 0.3 →
          adjust_question_difficulty s base u i = max 1 (base - 1)) ∧
        (0.3 ≤ trend_value history → trend_value history ≤ 0.7 →
          adjust_question_difficulty s base u i = base))) ∧
    (∀ q ∈ get_adaptive_questions high_state 1 7 2 3, q.difficulty_level = 3) ∧
    (get_adaptive_questions high_state 1 7 2 3).length = 3 := by
  have hadj : ∀ j : ℕ, adjust_question_difficulty high_state 2 7 j = 3 := by
    intro j
    rw [adjust_eq high_state 2 7 j [0.9, 0.9, 0.9] (by norm_num [high_state]) (by simp)]
    norm_num [trend_value, take_last, list_mean]
  refine ⟨?_, ?_, ?_, ?_⟩
  · intro h
    simp [adjust_question_difficulty, h]
  · intro history hh
    refine ⟨fun he => by simp [adjust_question_difficulty, hh, he], fun hne => ?_⟩
    refine ⟨?_, ?_, ?_, ?_, ?_⟩
    · intro h3
      unfold trend_value
      rw [if_pos h3]
    · intro h3
      unfold trend_value
      rw [if_neg (by omega)]
    · intro htv
      rw [adjust_eq s base u i history hh hne, if_pos htv]
      rcases hb with rfl | rfl | rfl <;> norm_num
    · intro htv
      rw [adjust_eq s base u i history hh hne, if_neg (by linarith), if_pos htv]
      rcases hb with rfl | rfl | rfl <;> norm_num
    · intro h1 h2
      rw [adjust_eq s base u i history hh hne, if_neg (by linarith), if_neg (by linarith)]
      rcases hb with rfl | rfl | rfl <;> norm_num
  · intro q hq
    unfold get_adaptive_questions at hq
    obtain ⟨j, hj, rfl⟩ := List.mem_map.mp hq
    simp only [generate_sample_question, hadj j]
  · simp [get_adaptive_questions]

/-- Witness for C4 (amended) at user 7 of `c4_state`, base 2. -/
theorem C4_witness :
    (c4_state.hist 7 = none → adjust_question_difficulty c4_state 2 7 0 = 2) ∧
    (∀ history : List ℚ, c4_state.hist 7 = some history →
      (history = [] → adjust_question_difficulty c4_state 2 7 0 = 2) ∧
      (history ≠ [] →
        (3 ≤ history.length → trend_value history = list_mean (take_last 3 history)) ∧
        (history.length < 3 → trend_value history = history.getLastD 0) ∧
        (0.7 < trend_value history →
          adjust_question_difficulty c4_state 2 7 0 = min 3 (2 + 1)) ∧
        (trend_value history < 0.3 →
          adjust_question_difficulty c4_state 2 7 0 = max 1 (2 - 1)) ∧
        (0.3 ≤ trend_value history → trend_value history ≤ 0.7 →
          adjust_question_difficulty c4_state 2 7 0 = 2))) ∧
    (∀ q ∈ get_adaptive_questions high_state 1 7 2 3, q.difficulty_level = 3) ∧
    (get_adaptive_questions high_state 1 7 2 3).length = 3 :=
  C4_trend_adjustment c4_state 7 2 0 (Or.inr (Or.inl rfl))

lemma py_int_nonneg {q : ℚ} (h : 0 ≤ q) : 0 ≤ py_int q := by
  unfold py_int
  rw [if_pos h]
  exact Int.floor_nonneg.mpr h

lemma py_int_le {q : ℚ} {n : ℤ} (h : q ≤ n) : py_int q ≤ n := by
  unfold py_int
  split_ifs with h0
  · calc ⌊q⌋ ≤ ⌊(n : ℚ)⌋ := Int.floor_le_floor h
      _ = n := Int.floor_intCast n
  · exact Int.ceil_le.mpr h

/-- C5: for `time_taken ≥ 0` and confidence in [0,1], `evaluate_answer` returns
the integer truncation of `base_score + time_bonus + confidence_bonus` with
`base_score = 10` iff the answers match, `time_bonus = max 0 ((300-t)/300*5)`
and `confidence_bonus = confidence*2` only when correct; the score lies in
[0,17]; and `evaluate_answer "A" "A" 30 0.9` is correct with score 16 and the
fast-correct feedback message. -/
theorem C5_evaluate_score (ua ca : String) (t conf : ℚ)
    (ht : 0 ≤ t) (hc0 : 0 ≤ conf) (hc1 : conf ≤ 1) :
    (evaluate_answer ua ca t conf).score =
      py_int ((if ua == ca then (10:ℚ) else 0) + max 0 ((300 - t) / 300 * 5) +
        (if ua == ca then conf * 2 else 0)) ∧
    0 ≤ (evaluate_answer ua ca t conf).score ∧
    (evaluate_answer ua ca t conf).score ≤ 17 ∧
    (evaluate_answer "A" "A" 30 0.9).is_correct = true ∧
    (evaluate_answer "A" "A" 30 0.9).score = 16 ∧
    (evaluate_answer "A" "A" 30 0.9).feedback =
      "Excellent! You answered quickly and correctly." := by
  have hbase0 : (0:ℚ) ≤ if ua == ca then 10 else 0 := by split_ifs <;> norm_num
  have hbase10 : (if ua == ca then (10:ℚ) else 0) ≤ 10 := by split_ifs <;> norm_num
  have htb0 : (0:ℚ) ≤ max 0 ((300 - t) / 300 * 5) := le_max_left _ _
  have htb5 : max 0 ((300 - t) / 300 * 5) ≤ 5 := max_le (by norm_num) (by linarith)
  have hcb0 : (0:ℚ) ≤ if ua == ca then conf * 2 else 0 := by split_ifs <;> linarith
  have hcb2 : (if ua == ca then conf * 2 else 0) ≤ 2 := by split_ifs <;> linarith
  refine ⟨rfl, py_int_nonneg (by linarith), py_int_le (by push_cast; linarith), rfl, ?_, rfl⟩
  show py_int ((if ("A" == "A") then (10:ℚ) else 0) + max 0 ((300 - 30) / 300 * 5) +
    (if ("A" == "A") then (0.9 : ℚ) * 2 else 0)) = 16
  rw [show ((if ("A" == "A") then (10:ℚ) else 0) + max 0 ((300 - 30) / 300 * 5) +
    (if ("A" == "A") then (0.9 : ℚ) * 2 else 0)) = 163/10 by
      rw [max_eq_right (by norm_num)]; norm_num]
  unfold py_int
  rw [if_pos (by norm_num), Int.floor_eq_iff] <;> norm_num

/-- Witness for C5 at an incorrect answer with `t = 0`, `conf = 1`. -/
theorem C5_witness :
    (evaluate_answer "A" "B" 0 1).score =
      py_int ((if "A" == "B" then (10:ℚ) else 0) + max 0 ((300 - 0) / 300 * 5) +
        (if "A" == "B" then (1:ℚ) * 2 else 0)) ∧
    0 ≤ (evaluate_answer "A" "B" 0 1).score ∧
    (evaluate_answer "A" "B" 0 1).score ≤ 17 ∧
    (evaluate_answer "A" "A" 30 0.9).is_correct = true ∧
    (evaluate_answer "A" "A" 30 0.9).score = 16 ∧
    (evaluate_answer "A" "A" 30 0.9).feedback =
      "Excellent! You answered quickly and correctly." :=
  C5_evaluate_score "A" "B" 0 1 (by norm_num) (by norm_num) (by norm_num)

lemma mem_append_evict {l : List ℚ} {x y : ℚ} (h : y ∈ append_evict l x) :
    y ∈ l ++ [x] := by
  rw [append_evict_eq] at h
  exact (take_last_sublist _ _).subset h

lemma run_updates_bounds (events : List (ℤ × QuizResult)) :
    ∀ s : QuizAdapterState, (∀ u, ∀ x ∈ hist_of s u, 0 ≤ x ∧ x ≤ 1) →
      ∀ u, ∀ x ∈ hist_of (run_updates s events) u, 0 ≤ x ∧ x ≤ 1 := by
  induction events with
  | nil => intro s hs; exact hs
  | cons e es ih =>
    intro s hs
    have hstep : run_updates s (e :: es) =
        run_updates (update_user_history s e.1 e.2) es := rfl
    rw [hstep]
    apply ih
    intro u x hx
    rw [hist_of_update] at hx
    by_cases hu : u = e.1
    · rw [if_pos hu] at hx
      rcases List.mem_append.mp (mem_append_evict hx) with hm | hm
      · exact hs e.1 x hm
      · rcases List.mem_singleton.mp hm with rfl
        exact ⟨calculate_performance_score_nonneg _, calculate_performance_score_le_one _⟩
    · rw [if_neg hu] at hx
      exact hs u x hx

/-- C6: the performance score pushed into history equals
`clamp01(correctness - time_penalty + confidence_bonus)` with
`time_penalty = max 0 (time_taken/300 * 0.3)` and
`confidence_bonus = confidence * 0.2`, and consequently every value ever stored
in any user's history lies in [0,1]. -/
theorem C6_performance_score (qr : QuizResult) (events : List (ℤ × QuizResult)) (u : ℤ) :
    calculate_performance_score qr =
      max 0 (min 1 ((if qr.is_correct then (1:ℚ) else 0) -
        max 0 (qr.time_taken / 300 * 0.3) + qr.confidence * 0.2)) ∧
    0 ≤ calculate_performance_score qr ∧ calculate_performance_score qr ≤ 1 ∧
    ∀ x ∈ hist_of (run_updates initial_state events) u, 0 ≤ x ∧ x ≤ 1 := by
  refine ⟨rfl, calculate_performance_score_nonneg qr,
    calculate_performance_score_le_one qr, ?_⟩
  intro x hx
  refine run_updates_bounds events initial_state ?_ u x hx
  intro v y hy
  simp [hist_of, initial_state] at hy

/-- Adapter state holding history `[0.7]` for user 7. -/
def c7_state : QuizAdapterState := ⟨fun u => if u = 7 then some [0.7] else none⟩

/-- C7 counterexample: a one-entry history with average exactly 0.7 yields no
strength flag, because the source compares with the strict `average_score > 0.7`;
the claim says an average of exactly 0.7 yields the flag. -/
theorem C7_counterexample :
    list_mean [(0.7 : ℚ)] = 0.7 ∧
    (get_performance_analytics c7_state 7).strengths = [] := by
  constructor
  · norm_num [list_mean]
  · have hm : list_mean [(0.7 : ℚ)] = 0.7 := by norm_num [list_mean]
    simp only [get_performance_analytics, c7_state]
    norm_num [hm, list_mean]

/-- C7 (amended): for a user with non-empty history, the analytics result
contains the strength flag exactly when the average of all history entries is
strictly greater than 0.7 (an average of exactly 0.7 yields no flag), and
contains the weakness flag exactly when that average is below 0.4. -/
theorem C7_threshold_flags (s : QuizAdapterState) (u : ℤ) (history : List ℚ)
    (hh : s.hist u = some history) (hne : history ≠ []) :
    ((get_performance_analytics s u).strengths = ["Consistent high performance"] ↔
      0.7 < list_mean history) ∧
    ((get_performance_analytics s u).strengths = [] ↔ ¬ 0.7 < list_mean history) ∧
    ((get_performance_analytics s u).weaknesses = ["Need for fundamental review"] ↔
      list_mean history < 0.4) ∧
    ((get_performance_analytics s u).weaknesses = [] ↔ ¬ list_mean history < 0.4) := by
  have hlen : ¬ history.length = 0 := by simpa [List.length_eq_zero] using hne
  unfold get_performance_analytics
  rw [hh]
  simp only [hlen, if_false]
  by_cases hst : (0.7 : ℚ) < list_mean history <;>
    by_cases hwk : list_mean history < (0.4 : ℚ) <;>
      simp [hst, hwk]

/-- Witness for C7 (amended) at `c4_state` (history `[0.9, 0.1]`, mean 0.5). -/
theorem C7_witness :
    ((get_performance_analytics c4_state 7).strengths = ["Consistent high performance"] ↔
      0.7 < list_mean [0.9, 0.1]) ∧
    ((get_performance_analytics c4_state 7).strengths = [] ↔
      ¬ 0.7 < list_mean [0.9, 0.1]) ∧
    ((get_performance_analytics c4_state 7).weaknesses = ["Need for fundamental review"] ↔
      list_mean [0.9, 0.1] < 0.4) ∧
    ((get_performance_analytics c4_state 7).weaknesses = [] ↔
      ¬ list_mean [0.9, 0.1] < 0.4) :=
  C7_threshold_flags c4_state 7 [0.9, 0.1] (by norm_num [c4_state]) (by simp)

lemma get_previous_performance_bounds (s : QuizAdapterState) (u : ℤ)
    (hh : ∀ x ∈ hist_of s u, 0 ≤ x ∧ x ≤ 1) :
    0 ≤ get_previous_performance s u ∧ get_previous_performance s u ≤ 1 := by
  unfold get_previous_performance
  cases hs : s.hist u with
  | none => norm_num
  | some history =>
    have hmem : ∀ x ∈ take_last 5 history, 0 ≤ x ∧ x ≤ 1 := by
      intro x hx
      apply hh
      unfold hist_of
      rw [hs]
      exact (take_last_sublist 5 history).subset hx
    dsimp only
    split_ifs with h0
    · norm_num
    · exact ⟨list_mean_nonneg (fun x hx => (hmem x hx).1),
        list_mean_le_one (fun x hx => (hmem x hx).2)⟩

/-- C8: for every answer event with `time_taken ≥ 0` and confidence in [0,1]
and every history whose entries lie in [0,1], all four components of the
extracted feature vector `[correctness, time_score, confidence,
previous_performance]` lie in [0,1]. -/
theorem C8_feature_bounds (s : QuizAdapterState) (u : ℤ) (qr : QuizResult)
    (ht : 0 ≤ qr.time_taken) (hc0 : 0 ≤ qr.confidence) (hc1 : qr.confidence ≤ 1)
    (hh : ∀ x ∈ hist_of s u, 0 ≤ x ∧ x ≤ 1) :
    ∀ x ∈ extract_features s u qr, 0 ≤ x ∧ x ≤ 1 := by
  intro x hx
  have hdiv : 0 ≤ qr.time_taken / 300 := div_nonneg ht (by norm_num)
  have hprev := get_previous_performance_bounds s u hh
  simp only [extract_features, List.mem_cons, List.not_mem_nil, or_false] at hx
  rcases hx with rfl | rfl | rfl | rfl
  · split_ifs <;> norm_num
  · exact ⟨le_max_left _ _, max_le (by norm_num) (by linarith)⟩
  · exact ⟨hc0, hc1⟩
  · exact hprev

/-- Witness for C8: the `time_score` component at the boundary
`time_taken = 10000` over history `[0.9, 0.9, 0.9]` lies in [0,1]. -/
theorem C8_witness :
    0 ≤ max 0 (1 - (10000 : ℚ) / 300) ∧ max 0 (1 - (10000 : ℚ) / 300) ≤ 1 :=
  C8_feature_bounds high_state 7 ⟨true, 10000, 1⟩ (by norm_num) (by norm_num)
    (by norm_num) (by norm_num [hist_of, high_state])
    (max 0 (1 - (10000 : ℚ) / 300)) (by simp [extract_features])

/-- C9: `get_performance_analytics` and the batch question path return the
adapter state unchanged (no history write), so calling either repeatedly for
the same user without an intervening append yields identical results. -/
theorem C9_read_paths_pure (s : QuizAdapterState) (topic u cur : ℤ) (n : ℕ) :
    (get_performance_analytics_call s u).2 = s ∧
    (get_adaptive_questions_call s topic u cur n).2 = s ∧
    (get_performance_analytics_call (get_performance_analytics_call s u).2 u).1 =
      (get_performance_analytics_call s u).1 ∧
    (get_adaptive_questions_call (get_adaptive_questions_call s topic u cur n).2
        topic u cur n).1 =
      (get_adaptive_questions_call s topic u cur n).1 :=
  ⟨rfl, rfl, rfl, rfl⟩

/-- C10: every batch contains exactly `num_questions` questions and all of them
carry one identical difficulty label: the per-question adjustment ignores the
question index and the batch path does not change history. -/
theorem C10_batch_uniform (s : QuizAdapterState) (topic u cur : ℤ) (n : ℕ) :
    (get_adaptive_questions s topic u cur n).length = n ∧
    ∀ q ∈ get_adaptive_questions s topic u cur n,
      q.difficulty_level = adjust_question_difficulty s cur u 0 := by
  constructor
  · simp [get_adaptive_questions]
  · intro q hq
    unfold get_adaptive_questions at hq
    obtain ⟨i, hi, rfl⟩ := List.mem_map.mp hq
    rfl
